import Mathlib

/-!
# mkloubert kernel module: embedding of `src/mkloubert.c`

The C file is embedded for the LP64 kernel data model: `size_t` is an unsigned
64-bit integer, `loff_t` and `ssize_t` are signed 64-bit integers.  Machine
integers are `Nat`/`Int` with explicit reduction modulo `2^64`.

The kernel services the module calls (`copy_to_user`, `proc_create`,
`proc_remove`, `printk`) are not part of the repository; they are modelled by
their documented contracts as functions on an explicit state, each of them
recording the call in a trace so that "what the module asked of the host" can
be stated.
-/

namespace Mkloubert

/-! ## Machine integers -/

/-- Conversion of a signed 64-bit value to `unsigned long` (usual arithmetic
conversions of C: reduction modulo `2^64`). -/
def to_u64 (x : Int) : Nat := (x % 18446744073709551616).toNat

/-- Conversion of an unsigned 64-bit value to a signed 64-bit type
(`loff_t`, `ssize_t`): two's complement. -/
def to_s64 (n : Nat) : Int :=
  if n % 18446744073709551616 < 9223372036854775808 then
    ((n % 18446744073709551616 : Nat) : Int)
  else
    ((n % 18446744073709551616 : Nat) : Int) - 18446744073709551616

/-- Range of the values a `loff_t` object can hold. -/
def loff_t_range (x : Int) : Prop :=
  -9223372036854775808 ≤ x ∧ x < 9223372036854775808

instance (x : Int) : Decidable (loff_t_range x) := by
  unfold loff_t_range; exact inferInstance

/-- Errno value `EFAULT` of `errno-base.h` ("Bad address"). -/
def EFAULT : Int := 14

/-- Errno value `ENOMEM` of `errno-base.h` ("Out of memory"). -/
def ENOMEM : Int := 12

/-! ## User space and `copy_to_user` -/

/-- User address space of the reading process, together with the trace of the
`copy_to_user` calls made on it (destination address, byte count). -/
structure UserSpace where
  /-- Whether a byte may be stored at the address. -/
  writable : Nat → Bool
  /-- Content of the address space. -/
  bytes : Nat → Nat
  /-- Calls of `copy_to_user` so far, oldest first. -/
  copies : List (Nat × Nat)

/-- Store one byte at an address. -/
def UserSpace.store (u : UserSpace) (addr b : Nat) : UserSpace :=
  { u with bytes := fun a => if a = addr then b else u.bytes a }

/-- Byte-wise copy in ascending address order that stops at the first address
which cannot be written; yields the number of bytes NOT copied. -/
def raw_copy_to_user (u : UserSpace) (dst : Nat) : List Nat → Nat × UserSpace
  | [] => (0, u)
  | b :: rest =>
    if u.writable dst then raw_copy_to_user (u.store dst b) (dst + 1) rest
    else ((b :: rest).length, u)

/-- Kernel service `copy_to_user(to, from, n)`: copies `n` bytes of the kernel
buffer `src` to user address `dst`; returns the number of bytes that could not
be copied, zero on success. -/
def copy_to_user (u : UserSpace) (dst : Nat) (src : List Nat) (n : Nat) : Nat × UserSpace :=
  raw_copy_to_user { u with copies := u.copies ++ [(dst, n)] } dst (src.take n)

/-- C library `strlen`: number of bytes before the first NUL. -/
def strlen (s : List Nat) : Nat := (s.takeWhile (fun b => b != 0)).length

/-! ## The read handler -/

/-- The array `msg` of `mkloubert_read`, terminating NUL included. -/
def msg : List Nat := ("Hail to The GitFather!\n".toList.map Char.toNat) ++ [0]

/-- Outcome of one `mkloubert_read` call. -/
structure ReadResult where
  /-- Returned `ssize_t`. -/
  ret : Int
  /-- Value of `*offset` after the call. -/
  offset : Int
  /-- User space after the call. -/
  user : UserSpace

/-- The function `mkloubert_read(file_pointer, user_space_buffer, count, offset)`.
`file_pointer` is unused by the source and omitted; `offset` is the value of
`*offset` on entry. -/
def mkloubert_read (u : UserSpace) (user_space_buffer : Nat) (count : Nat) (offset : Int) :
    ReadResult :=
  let len := strlen msg
  -- `*offset >= len`: both operands converted to unsigned 64-bit
  if to_u64 offset ≥ len then
    { ret := 0, offset := offset, user := u }
  else
    let r := copy_to_user u user_space_buffer msg len
    if r.1 ≠ 0 then
      { ret := -EFAULT, offset := offset, user := r.2 }
    else
      { ret := to_s64 len, offset := to_s64 (to_u64 offset + len), user := r.2 }

/-- One invocation of the read handler within a read session: the user space
as it is at the time of the call (the process may have changed it at will since
the previous call), the destination buffer and the requested length. -/
structure ReadCall where
  user : UserSpace
  user_space_buffer : Nat
  count : Nat

/-- A read session: successive `mkloubert_read` calls on one open file, the
file position being changed by the handler only.  Yields, per call, the
returned value and the file position after the call. -/
def read_session (cursor : Int) : List ReadCall → List (Int × Int)
  | [] => []
  | c :: cs =>
    let r := mkloubert_read c.user c.user_space_buffer c.count cursor
    (r.ret, r.offset) :: read_session r.offset cs

/-- Byte count a `read` caller obtains from a returned `ssize_t`: a negative
value is an error code and carries no bytes. -/
def bytes_delivered (ret : Int) : Nat := ret.toNat

/-- A user space whose only writable addresses are those of one page,
`4096 ≤ a < 8192`, zero-filled, with no earlier `copy_to_user` call. -/
def one_page : UserSpace :=
  { writable := fun a => decide (4096 ≤ a) && decide (a < 8192),
    bytes := fun _ => 0,
    copies := [] }

/-- A session of four calls on `one_page`: a buffer that runs off the end of
the page, a good buffer of 4096 bytes, the same again, and an unmapped buffer
with a requested length of 7. -/
def four_calls : List ReadCall :=
  [ { user := one_page, user_space_buffer := 8190, count := 10 },
    { user := one_page, user_space_buffer := 4096, count := 4096 },
    { user := one_page, user_space_buffer := 4096, count := 4096 },
    { user := one_page, user_space_buffer := 0, count := 7 } ]

/-! ## The host: proc file system registry and kernel log -/

/-- Severity of a `printk` record. -/
inductive LogLevel where
  | KERN_ERR
  | KERN_INFO
  deriving DecidableEq, Repr

/-- Functions of this module that can be bound as a callback. -/
inductive Callback where
  | mkloubert_read
  deriving DecidableEq, Repr

/-- The fields of `struct proc_ops` the module sets; an unset field is `none`. -/
structure proc_ops where
  proc_read : Option Callback
  deriving DecidableEq, Repr

/-- The object `driver_proc_ops`. -/
def driver_proc_ops : proc_ops := { proc_read := some Callback.mkloubert_read }

/-- A registered proc entry: its address (the handle), and the arguments it
was created with. -/
structure proc_dir_entry where
  addr : Nat
  name : String
  mode : Nat
  parent : Nat
  ops : proc_ops
  deriving DecidableEq, Repr

/-- A request the module makes to the proc file system. -/
inductive ProcCall where
  | create (name : String) (mode : Nat) (parent : Nat) (ops : proc_ops)
  | remove (de : Nat)
  deriving DecidableEq, Repr

/-- State of the module and of the host around it.  Pointers are addresses,
`NULL` is `0`. -/
structure State where
  /-- The static variable `custom_proc_node` of the module. -/
  custom_proc_node : Nat
  /-- What the host will answer to the coming entry creations, in order: the
  address of the new entry, or `0` when it cannot create one.  An exhausted
  list means the host cannot create any entry. -/
  proc_alloc : List Nat
  /-- The entries registered in the proc file system, newest first. -/
  proc_entries : List proc_dir_entry
  /-- The kernel log, oldest record first. -/
  klog : List (LogLevel × String)
  /-- The requests made to the proc file system so far, oldest first. -/
  proc_calls : List ProcCall
  deriving DecidableEq, Repr

/-- Kernel service `proc_create(name, mode, parent, proc_ops)`: on success the
new entry is registered and its address returned, on failure `NULL` is
returned and nothing is registered. -/
def proc_create (s : State) (name : String) (mode parent : Nat) (ops : proc_ops) :
    Nat × State :=
  let s1 : State :=
    { s with proc_calls := s.proc_calls ++ [ProcCall.create name mode parent ops] }
  match s.proc_alloc with
  | [] => (0, s1)
  | 0 :: rest => (0, { s1 with proc_alloc := rest })
  | (p + 1) :: rest =>
    (p + 1,
      { s1 with
        proc_alloc := rest,
        proc_entries :=
          { addr := p + 1, name := name, mode := mode, parent := parent, ops := ops }
            :: s.proc_entries })

/-- Kernel service `proc_remove(de)`: unregisters the entry at address `de`;
does nothing for `NULL`. -/
def proc_remove (s : State) (de : Nat) : State :=
  let s1 : State := { s with proc_calls := s.proc_calls ++ [ProcCall.remove de] }
  if de = 0 then s1
  else { s1 with proc_entries := s.proc_entries.filter (fun e => e.addr != de) }

/-- Kernel service `printk` with a severity marker and a constant text. -/
def printk (s : State) (level : LogLevel) (text : String) : State :=
  { s with klog := s.klog ++ [(level, text)] }

/-! ## Module load and unload -/

/-- The function `mkloubert_module_init`: returned `int` and state after. -/
def mkloubert_module_init (s : State) : Int × State :=
  let r := proc_create s "mkloubert" 0 0 driver_proc_ops
  let s1 : State := { r.2 with custom_proc_node := r.1 }
  if s1.custom_proc_node = 0 then
    (-ENOMEM,
      printk s1 LogLevel.KERN_ERR "mkloubert_module_init: Failed to create proc entry\n")
  else
    (0, printk s1 LogLevel.KERN_INFO
      "mkloubert_module_init: Proc entry created successfully\n")

/-- The function `mkloubert_module_exit`. -/
def mkloubert_module_exit (s : State) : State :=
  printk (proc_remove s s.custom_proc_node) LogLevel.KERN_INFO
    "mkloubert_module_exit: Proc entry removed\n"

/-- Whether the module holds a valid handle: `custom_proc_node` is not `NULL`
and is the address of an entry registered in the proc file system. -/
def handle_valid (s : State) : Bool :=
  s.custom_proc_node != 0 && s.proc_entries.any (fun e => e.addr == s.custom_proc_node)

/-- A freshly booted host on which the module is not loaded: nothing
registered, empty log, and the host able to create one entry, at address
`49152`. -/
def healthy_host : State :=
  { custom_proc_node := 0, proc_alloc := [49152], proc_entries := [], klog := [],
    proc_calls := [] }

/-- A host that cannot create a proc entry (allocation failure). -/
def exhausted_host : State :=
  { custom_proc_node := 0, proc_alloc := [0], proc_entries := [], klog := [],
    proc_calls := [] }

/-! ## Lemmas on the machine integers and on `copy_to_user` -/

theorem strlen_msg : strlen msg = 23 := by decide

theorem take_msg :
    msg.take 23 = "Hail to The GitFather!\n".toList.map Char.toNat := by decide

theorem to_u64_of_nonneg (x : Int) (h0 : 0 ≤ x) (h1 : x < 9223372036854775808) :
    to_u64 x = x.toNat := by
  unfold to_u64; omega

theorem to_u64_of_neg (x : Int) (h0 : x < 0) (h1 : -9223372036854775808 ≤ x) :
    to_u64 x = (x + 18446744073709551616).toNat := by
  unfold to_u64; omega

theorem to_s64_small (n : Nat) (h : n < 9223372036854775808) : to_s64 n = n := by
  unfold to_s64
  have h1 : n % 18446744073709551616 = n := Nat.mod_eq_of_lt (by omega)
  rw [h1, if_pos h]

theorem raw_copy_to_user_copies (l : List Nat) (u : UserSpace) (dst : Nat) :
    (raw_copy_to_user u dst l).2.copies = u.copies := by
  induction l generalizing u dst with
  | nil => rfl
  | cons b rest ih =>
    unfold raw_copy_to_user
    split
    · rw [ih]; rfl
    · rfl

theorem raw_copy_to_user_writable (l : List Nat) (u : UserSpace) (dst : Nat) :
    (raw_copy_to_user u dst l).2.writable = u.writable := by
  induction l generalizing u dst with
  | nil => rfl
  | cons b rest ih =>
    unfold raw_copy_to_user
    split
    · rw [ih]; rfl
    · rfl

theorem raw_copy_to_user_below (l : List Nat) (u : UserSpace) (dst a : Nat) (h : a < dst) :
    (raw_copy_to_user u dst l).2.bytes a = u.bytes a := by
  induction l generalizing u dst with
  | nil => rfl
  | cons b rest ih =>
    unfold raw_copy_to_user
    split
    · rw [ih _ _ (by omega)]
      simp only [UserSpace.store]
      rw [if_neg (by omega)]
    · rfl

theorem raw_copy_to_user_le (l : List Nat) (u : UserSpace) (dst : Nat) :
    (raw_copy_to_user u dst l).1 ≤ l.length := by
  induction l generalizing u dst with
  | nil => simp [raw_copy_to_user]
  | cons b rest ih =>
    unfold raw_copy_to_user
    split
    · have := ih (u.store dst b) (dst + 1)
      simp only [List.length_cons]; omega
    · exact Nat.le_refl _

theorem raw_copy_to_user_ok (l : List Nat) (u : UserSpace) (dst : Nat)
    (h : (raw_copy_to_user u dst l).1 = 0) (i : Nat) (hi : i < l.length) :
    (raw_copy_to_user u dst l).2.bytes (dst + i) = l.get ⟨i, hi⟩ := by
  induction l generalizing u dst i with
  | nil => simp at hi
  | cons b rest ih =>
    unfold raw_copy_to_user at h ⊢
    split at h
    next hw =>
      rw [if_pos hw]
      cases i with
      | zero =>
        rw [raw_copy_to_user_below _ _ _ _ (by omega)]
        simp [UserSpace.store]
      | succ j =>
        have hj : j < rest.length := by simpa using hi
        have := ih (u.store dst b) (dst + 1) h j hj
        have e : dst + (j + 1) = dst + 1 + j := by omega
        rw [e, this]; rfl
    next hw => simp at h

theorem raw_copy_to_user_zero_iff (l : List Nat) (u : UserSpace) (dst : Nat) :
    (raw_copy_to_user u dst l).1 = 0 ↔ ∀ i, i < l.length → u.writable (dst + i) = true := by
  induction l generalizing u dst with
  | nil => simp [raw_copy_to_user]
  | cons b rest ih =>
    unfold raw_copy_to_user
    split
    next hw =>
      rw [ih]
      constructor
      · intro h i hi
        cases i with
        | zero => simpa using hw
        | succ j =>
          have := h j (by simpa using hi)
          have e : dst + (j + 1) = dst + 1 + j := by omega
          rw [e]; exact this
      · intro h i hi
        have := h (i + 1) (by simpa using hi)
        have e : dst + (i + 1) = dst + 1 + i := by omega
        rw [← e]; exact this
    next hw =>
      constructor
      · intro h; simp at h
      · intro h
        exact absurd (h 0 (by simp)) (by simpa using hw)

theorem copy_to_user_copies (u : UserSpace) (dst : Nat) (src : List Nat) (n : Nat) :
    (copy_to_user u dst src n).2.copies = u.copies ++ [(dst, n)] := by
  unfold copy_to_user
  rw [raw_copy_to_user_copies]

theorem copy_to_user_bytes (u : UserSpace) (dst : Nat) (src : List Nat) (n : Nat)
    (h : (copy_to_user u dst src n).1 = 0) (hn : n ≤ src.length) (i : Nat) (hi : i < n) :
    (copy_to_user u dst src n).2.bytes (dst + i) = src.getD i 0 := by
  unfold copy_to_user at h ⊢
  have hl : i < (src.take n).length := by
    rw [List.length_take]; omega
  rw [raw_copy_to_user_ok _ _ _ h i hl]
  have hs : i < src.length := by omega
  simp [List.getD, List.getElem?_eq_getElem hs, List.getElem_take]

/-! ## Case analysis of `mkloubert_read` -/

theorem mkloubert_read_eof (u : UserSpace) (buf count : Nat) (off : Int)
    (h : 23 ≤ to_u64 off) :
    mkloubert_read u buf count off = { ret := 0, offset := off, user := u } := by
  unfold mkloubert_read
  simp only [strlen_msg]
  rw [if_pos h]

theorem mkloubert_read_fault (u : UserSpace) (buf count : Nat) (off : Int)
    (h : to_u64 off < 23) (hc : (copy_to_user u buf msg 23).1 ≠ 0) :
    mkloubert_read u buf count off =
      { ret := -14, offset := off, user := (copy_to_user u buf msg 23).2 } := by
  unfold mkloubert_read
  simp only [strlen_msg]
  rw [if_neg (by omega), if_pos hc]
  rfl

theorem mkloubert_read_ok (u : UserSpace) (buf count : Nat) (off : Int)
    (h : to_u64 off < 23) (hc : (copy_to_user u buf msg 23).1 = 0) :
    mkloubert_read u buf count off =
      { ret := 23, offset := to_s64 (to_u64 off + 23),
        user := (copy_to_user u buf msg 23).2 } := by
  unfold mkloubert_read
  simp only [strlen_msg]
  rw [if_neg (by omega), if_neg (by simpa using hc)]
  rfl

theorem delivered_bytes (u : UserSpace) (buf : Nat)
    (hc : (copy_to_user u buf msg 23).1 = 0) :
    (List.range 23).map (fun i => (copy_to_user u buf msg 23).2.bytes (buf + i))
      = "Hail to The GitFather!\n".toList.map Char.toNat := by
  have key : ∀ i ∈ List.range 23,
      (copy_to_user u buf msg 23).2.bytes (buf + i) = msg.getD i 0 := by
    intro i hi
    exact copy_to_user_bytes u buf msg 23 hc (by decide) i (List.mem_range.mp hi)
  rw [List.map_congr_left key]
  decide

/-- A negative `loff_t` offset compares as a huge unsigned value and is treated
as end of data; the virtual file system never passes one to a read handler. -/
theorem mkloubert_read_negative (u : UserSpace) (buf count : Nat) (off : Int)
    (h0 : off < 0) (h1 : -9223372036854775808 ≤ off) :
    mkloubert_read u buf count off = { ret := 0, offset := off, user := u } := by
  apply mkloubert_read_eof
  rw [to_u64_of_neg off h0 h1]; omega

/-! ## The read handler: claims -/

/-- Claim C1: for every requested length of at least L = 23 bytes, a read at
cursor 0 whose `copy_to_user` succeeds returns exactly 23, leaves the 23 bytes
of the message `"Hail to The GitFather!\n"` at the start of the destination
buffer, and sets the cursor to 23. -/
theorem fresh_read_delivers_message (u : UserSpace) (buf count : Nat)
    (hcount : strlen msg ≤ count)
    (hcopy : (copy_to_user u buf msg (strlen msg)).1 = 0) :
    strlen msg = 23 ∧
    (mkloubert_read u buf count 0).ret = 23 ∧
    (List.range 23).map (fun i => (mkloubert_read u buf count 0).user.bytes (buf + i))
      = "Hail to The GitFather!\n".toList.map Char.toNat ∧
    (mkloubert_read u buf count 0).offset = 23 := by
  rw [strlen_msg] at hcopy
  have h0 : to_u64 0 < 23 := by decide
  rw [mkloubert_read_ok u buf count 0 h0 hcopy]
  refine ⟨strlen_msg, rfl, delivered_bytes u buf hcopy, ?_⟩
  show to_s64 (to_u64 0 + 23) = 23
  decide

theorem fresh_read_delivers_message_witness :
    strlen msg ≤ 4096 ∧
    (copy_to_user one_page 4096 msg (strlen msg)).1 = 0 ∧
    (strlen msg = 23 ∧
    (mkloubert_read one_page 4096 4096 0).ret = 23 ∧
    (List.range 23).map (fun i => (mkloubert_read one_page 4096 4096 0).user.bytes (4096 + i))
      = "Hail to The GitFather!\n".toList.map Char.toNat ∧
    (mkloubert_read one_page 4096 4096 0).offset = 23) :=
  ⟨by decide, by decide,
    fresh_read_delivers_message one_page 4096 4096 (by decide) (by decide)⟩

/-- Claim C2: for every cursor of at least L = 23, every requested length and
every destination buffer in any user space, the read returns 0, which is not an
error code, leaves the cursor unchanged and makes no `copy_to_user` call: the
user space, call trace included, is unchanged. -/
theorem read_at_end_returns_zero (u : UserSpace) (buf count : Nat) (cursor : Int)
    (hrange : loff_t_range cursor) (hcur : (strlen msg : Int) ≤ cursor) :
    (mkloubert_read u buf count cursor).ret = 0 ∧
    ¬ (mkloubert_read u buf count cursor).ret < 0 ∧
    (mkloubert_read u buf count cursor).offset = cursor ∧
    (mkloubert_read u buf count cursor).user = u ∧
    (mkloubert_read u buf count cursor).user.copies = u.copies := by
  rw [strlen_msg] at hcur
  obtain ⟨_, hmax⟩ := hrange
  have h : 23 ≤ to_u64 cursor := by
    rw [to_u64_of_nonneg cursor (by omega) hmax]; omega
  rw [mkloubert_read_eof u buf count cursor h]
  refine ⟨rfl, ?_, rfl, rfl, rfl⟩
  show ¬ (0 : Int) < 0
  decide

theorem read_at_end_returns_zero_witness :
    loff_t_range 23 ∧ (strlen msg : Int) ≤ 23 ∧
    ((mkloubert_read one_page 0 4096 23).ret = 0 ∧
    ¬ (mkloubert_read one_page 0 4096 23).ret < 0 ∧
    (mkloubert_read one_page 0 4096 23).offset = 23 ∧
    (mkloubert_read one_page 0 4096 23).user = one_page ∧
    (mkloubert_read one_page 0 4096 23).user.copies = one_page.copies) :=
  ⟨by decide, by decide,
    read_at_end_returns_zero one_page 0 4096 23 (by decide) (by decide)⟩

/-- Claim C3: for every cursor below L = 23 (a file position, hence not
negative), if `copy_to_user` reports a non-zero number of uncopied bytes, the
read returns `-EFAULT` (-14, a negative result), which delivers zero bytes to
the caller, and the cursor is unchanged. -/
theorem failed_copy_is_access_fault (u : UserSpace) (buf count : Nat) (cursor : Int)
    (hnonneg : 0 ≤ cursor) (hcur : cursor < (strlen msg : Int))
    (hcopy : (copy_to_user u buf msg (strlen msg)).1 ≠ 0) :
    (mkloubert_read u buf count cursor).ret = -EFAULT ∧
    (mkloubert_read u buf count cursor).ret = -14 ∧
    (mkloubert_read u buf count cursor).ret < 0 ∧
    bytes_delivered (mkloubert_read u buf count cursor).ret = 0 ∧
    (mkloubert_read u buf count cursor).offset = cursor := by
  rw [strlen_msg] at hcur hcopy
  have h : to_u64 cursor < 23 := by
    rw [to_u64_of_nonneg cursor hnonneg (by omega)]; omega
  rw [mkloubert_read_fault u buf count cursor h hcopy]
  refine ⟨?_, rfl, ?_, ?_, rfl⟩
  · show (-14 : Int) = -EFAULT
    decide
  · show (-14 : Int) < 0
    decide
  · show bytes_delivered (-14) = 0
    decide

theorem failed_copy_is_access_fault_witness :
    (0 : Int) ≤ 5 ∧ (5 : Int) < (strlen msg : Int) ∧
    (copy_to_user one_page 8190 msg (strlen msg)).1 ≠ 0 ∧
    ((mkloubert_read one_page 8190 4096 5).ret = -EFAULT ∧
    (mkloubert_read one_page 8190 4096 5).ret = -14 ∧
    (mkloubert_read one_page 8190 4096 5).ret < 0 ∧
    bytes_delivered (mkloubert_read one_page 8190 4096 5).ret = 0 ∧
    (mkloubert_read one_page 8190 4096 5).offset = 5) :=
  ⟨by decide, by decide, by decide,
    failed_copy_is_access_fault one_page 8190 4096 5 (by decide) (by decide) (by decide)⟩

/-- Claim C9: the outcome of a read does not depend on the requested length:
two calls that differ only in it yield the same returned value, the same final
cursor and the same user space (bytes and `copy_to_user` trace).  In
particular, at a cursor below L = 23 with a requested length below 23, zero
included, the handler still asks `copy_to_user` for all 23 bytes and, when
that copy succeeds, the whole message is in the buffer and 23 is returned,
more than was asked for. -/
theorem read_ignores_requested_length (u : UserSpace) (buf count1 count2 : Nat)
    (cursor : Int) :
    mkloubert_read u buf count1 cursor = mkloubert_read u buf count2 cursor ∧
    (0 ≤ cursor → cursor < 23 → count1 < 23 →
      (mkloubert_read u buf count1 cursor).user.copies = u.copies ++ [(buf, 23)] ∧
      ((copy_to_user u buf msg 23).1 = 0 →
        (mkloubert_read u buf count1 cursor).ret = 23 ∧
        (count1 : Int) < (mkloubert_read u buf count1 cursor).ret ∧
        (List.range 23).map
            (fun i => (mkloubert_read u buf count1 cursor).user.bytes (buf + i))
          = "Hail to The GitFather!\n".toList.map Char.toNat)) := by
  refine ⟨rfl, ?_⟩
  intro h0 h1 hc
  have h : to_u64 cursor < 23 := by
    rw [to_u64_of_nonneg cursor h0 (by omega)]; omega
  constructor
  · by_cases hcopy : (copy_to_user u buf msg 23).1 = 0
    · rw [mkloubert_read_ok u buf count1 cursor h hcopy]
      exact copy_to_user_copies u buf msg 23
    · rw [mkloubert_read_fault u buf count1 cursor h hcopy]
      exact copy_to_user_copies u buf msg 23
  · intro hcopy
    rw [mkloubert_read_ok u buf count1 cursor h hcopy]
    refine ⟨rfl, ?_, delivered_bytes u buf hcopy⟩
    show (count1 : Int) < 23
    omega

theorem read_ignores_requested_length_witness :
    mkloubert_read one_page 4096 0 0 = mkloubert_read one_page 4096 4096 0 ∧
    (0 : Int) ≤ 0 ∧ (0 : Int) < 23 ∧ 0 < 23 ∧
    (mkloubert_read one_page 4096 0 0).user.copies = one_page.copies ++ [(4096, 23)] ∧
    (copy_to_user one_page 4096 msg 23).1 = 0 ∧
    ((mkloubert_read one_page 4096 0 0).ret = 23 ∧
      ((0 : Nat) : Int) < (mkloubert_read one_page 4096 0 0).ret ∧
      (List.range 23).map
          (fun i => (mkloubert_read one_page 4096 0 0).user.bytes (4096 + i))
        = "Hail to The GitFather!\n".toList.map Char.toNat) :=
  ⟨(read_ignores_requested_length one_page 4096 0 4096 0).1,
    by decide, by decide, by decide,
    ((read_ignores_requested_length one_page 4096 0 4096 0).2
      (by decide) (by decide) (by decide)).1,
    by decide,
    ((read_ignores_requested_length one_page 4096 0 4096 0).2
      (by decide) (by decide) (by decide)).2 (by decide)⟩

/-- Claim C10: at a cursor `c` with `0 < c < 23` and a successful copy, the
read writes the whole message from its first byte, returns 23 and sets the
cursor to `c + 23`, strictly between 23 and 46; neither the unsigned addition
nor the conversion back to `loff_t` overflows, and any read at the new cursor
returns 0. -/
theorem mid_cursor_read_delivers_whole_message (u : UserSpace) (buf count : Nat)
    (c : Int) (hpos : 0 < c) (hlt : c < 23)
    (hcopy : (copy_to_user u buf msg (strlen msg)).1 = 0) :
    (List.range 23).map (fun i => (mkloubert_read u buf count c).user.bytes (buf + i))
      = "Hail to The GitFather!\n".toList.map Char.toNat ∧
    (mkloubert_read u buf count c).ret = 23 ∧
    (mkloubert_read u buf count c).offset = c + 23 ∧
    23 < (mkloubert_read u buf count c).offset ∧
    (mkloubert_read u buf count c).offset < 46 ∧
    to_u64 c + strlen msg < 18446744073709551616 ∧
    loff_t_range (c + 23) ∧
    (∀ (u2 : UserSpace) (buf2 count2 : Nat),
      (mkloubert_read u2 buf2 count2 (mkloubert_read u buf count c).offset).ret = 0) := by
  rw [strlen_msg] at hcopy
  have hu : to_u64 c = c.toNat := to_u64_of_nonneg c (by omega) (by omega)
  have h : to_u64 c < 23 := by rw [hu]; omega
  have hoff : to_s64 (to_u64 c + 23) = c + 23 := by
    rw [to_s64_small _ (by omega), hu]; omega
  rw [mkloubert_read_ok u buf count c h hcopy]
  refine ⟨delivered_bytes u buf hcopy, rfl, hoff, ?_, ?_, ?_, ?_, ?_⟩
  · show 23 < to_s64 (to_u64 c + 23)
    rw [hoff]; omega
  · show to_s64 (to_u64 c + 23) < 46
    rw [hoff]; omega
  · rw [strlen_msg]; omega
  · unfold loff_t_range; omega
  · intro u2 buf2 count2
    show (mkloubert_read u2 buf2 count2 (to_s64 (to_u64 c + 23))).ret = 0
    rw [hoff, mkloubert_read_eof u2 buf2 count2 (c + 23)
      (by rw [to_u64_of_nonneg (c + 23) (by omega) (by omega)]; omega)]

theorem mid_cursor_read_delivers_whole_message_witness :
    (0 : Int) < 5 ∧ (5 : Int) < 23 ∧
    (copy_to_user one_page 4096 msg (strlen msg)).1 = 0 ∧
    ((List.range 23).map (fun i => (mkloubert_read one_page 4096 100 5).user.bytes (4096 + i))
      = "Hail to The GitFather!\n".toList.map Char.toNat ∧
    (mkloubert_read one_page 4096 100 5).ret = 23 ∧
    (mkloubert_read one_page 4096 100 5).offset = 5 + 23 ∧
    23 < (mkloubert_read one_page 4096 100 5).offset ∧
    (mkloubert_read one_page 4096 100 5).offset < 46 ∧
    to_u64 5 + strlen msg < 18446744073709551616 ∧
    loff_t_range (5 + 23) ∧
    (∀ (u2 : UserSpace) (buf2 count2 : Nat),
      (mkloubert_read u2 buf2 count2 (mkloubert_read one_page 4096 100 5).offset).ret = 0)) :=
  ⟨by decide, by decide, by decide,
    mid_cursor_read_delivers_whole_message one_page 4096 100 5
      (by decide) (by decide) (by decide)⟩

/-! ## Read sessions -/

theorem read_step_unread (c : ReadCall) :
    ((mkloubert_read c.user c.user_space_buffer c.count 0).ret = -14 ∧
      (mkloubert_read c.user c.user_space_buffer c.count 0).offset = 0) ∨
    ((mkloubert_read c.user c.user_space_buffer c.count 0).ret = 23 ∧
      (mkloubert_read c.user c.user_space_buffer c.count 0).offset = 23) := by
  have h0 : to_u64 0 < 23 := by decide
  by_cases hc : (copy_to_user c.user c.user_space_buffer msg 23).1 = 0
  · right
    rw [mkloubert_read_ok _ _ _ 0 h0 hc]
    refine ⟨rfl, ?_⟩
    show to_s64 (to_u64 0 + 23) = 23
    decide
  · left
    rw [mkloubert_read_fault _ _ _ 0 h0 hc]
    exact ⟨rfl, rfl⟩

theorem read_step_delivered (c : ReadCall) :
    (mkloubert_read c.user c.user_space_buffer c.count 23).ret = 0 ∧
    (mkloubert_read c.user c.user_space_buffer c.count 23).offset = 23 := by
  rw [mkloubert_read_eof _ _ _ 23 (by decide)]
  exact ⟨rfl, rfl⟩

theorem read_session_delivered (cs : List ReadCall) :
    ∀ q ∈ read_session 23 cs, q = ((0 : Int), (23 : Int)) := by
  induction cs with
  | nil => intro q hq; simp [read_session] at hq
  | cons c cs ih =>
    intro q hq
    obtain ⟨hr, ho⟩ := read_step_delivered c
    simp only [read_session, hr, ho, List.mem_cons] at hq
    rcases hq with hq | hq
    · exact hq
    · exact ih q hq

theorem read_session_cursor_values (cs : List ReadCall) :
    ∀ q ∈ read_session 0 cs, q.2 = 0 ∨ q.2 = 23 := by
  induction cs with
  | nil => intro q hq; simp [read_session] at hq
  | cons c cs ih =>
    intro q hq
    rcases read_step_unread c with ⟨hr, ho⟩ | ⟨hr, ho⟩
    · simp only [read_session, hr, ho, List.mem_cons] at hq
      rcases hq with hq | hq
      · left; rw [hq]
      · exact ih q hq
    · simp only [read_session, hr, ho, List.mem_cons] at hq
      rcases hq with hq | hq
      · right; rw [hq]
      · right; rw [read_session_delivered cs q hq]

theorem read_session_after_delivery (cs : List ReadCall) :
    ∀ (i j : Nat) (p q : Int × Int), i < j →
      (read_session 0 cs)[i]? = some p → (read_session 0 cs)[j]? = some q →
      p.1 = 23 → q = ((0 : Int), (23 : Int)) := by
  induction cs with
  | nil => intro i j p q _ hp; simp [read_session] at hp
  | cons c cs ih =>
    intro i j p q hij hp hq h23
    obtain ⟨j, rfl⟩ : ∃ k, j = k + 1 := ⟨j - 1, by omega⟩
    rcases read_step_unread c with ⟨hr, ho⟩ | ⟨hr, ho⟩
    · simp only [read_session, hr, ho, List.getElem?_cons_succ] at hp hq
      cases i with
      | zero =>
        simp only [List.getElem?_cons_zero, Option.some.injEq] at hp
        rw [← hp] at h23
        exact absurd h23 (by decide)
      | succ i =>
        simp only [List.getElem?_cons_succ] at hp
        exact ih i j p q (by omega) hp hq h23
    · simp only [read_session, hr, ho, List.getElem?_cons_succ] at hp hq
      exact read_session_delivered cs q (List.getElem?_mem hq)

theorem read_session_delivered_count (cs : List ReadCall) :
    (read_session 23 cs).countP (fun p => decide (p.1 = 23)) = 0 := by
  rw [List.countP_eq_zero]
  intro q hq
  rw [read_session_delivered cs q hq]
  decide

theorem read_session_delivery_count (cs : List ReadCall) :
    (read_session 0 cs).countP (fun p => decide (p.1 = 23)) ≤ 1 := by
  induction cs with
  | nil => simp [read_session]
  | cons c cs ih =>
    rcases read_step_unread c with ⟨hr, ho⟩ | ⟨hr, ho⟩
    · simp only [read_session, hr, ho]
      rw [List.countP_cons_of_neg _ _ (by decide)]
      exact ih
    · simp only [read_session, hr, ho]
      rw [List.countP_cons_of_pos _ _ (by decide), read_session_delivered_count]

/-- Claim C4: in a read session that starts at cursor 0 and in which only the
handler changes the cursor, whatever the number of calls, their requested
lengths, buffers and user spaces: every call made after a call that returned
L = 23 returns 0 and leaves the cursor at 23; at most one call returns 23; and
after every call the cursor is 0 or 23. -/
theorem session_delivers_at_most_once (calls : List ReadCall) :
    (∀ (i j : Nat) (p q : Int × Int), i < j →
      (read_session 0 calls)[i]? = some p → (read_session 0 calls)[j]? = some q →
      p.1 = 23 → q = ((0 : Int), (23 : Int))) ∧
    (read_session 0 calls).countP (fun p => decide (p.1 = 23)) ≤ 1 ∧
    (∀ q ∈ read_session 0 calls, q.2 = 0 ∨ q.2 = 23) :=
  ⟨read_session_after_delivery calls, read_session_delivery_count calls,
    read_session_cursor_values calls⟩

theorem session_delivers_at_most_once_witness :
    read_session 0 four_calls = [(-14, 0), (23, 23), (0, 23), (0, 23)] ∧
    1 < 3 ∧ (read_session 0 four_calls)[1]? = some (23, 23) ∧
    (read_session 0 four_calls)[3]? = some (0, 23) ∧
    (((23 : Int), (23 : Int))).1 = 23 ∧
    (((0 : Int), (23 : Int)) = ((0 : Int), (23 : Int))) ∧
    (read_session 0 four_calls).countP (fun p => decide (p.1 = 23)) ≤ 1 :=
  ⟨by decide, by decide, by decide, by decide, by decide,
    (session_delivers_at_most_once four_calls).1 1 3 (23, 23) (0, 23)
      (by decide) (by decide) (by decide) (by decide),
    (session_delivers_at_most_once four_calls).2.1⟩

/-! ## Module load and unload: lemmas -/

theorem proc_create_null (s : State) (name : String) (mode parent : Nat) (ops : proc_ops)
    (h : (proc_create s name mode parent ops).1 = 0) :
    (proc_create s name mode parent ops).2.proc_entries = s.proc_entries ∧
    (proc_create s name mode parent ops).2.klog = s.klog ∧
    (proc_create s name mode parent ops).2.proc_calls
      = s.proc_calls ++ [ProcCall.create name mode parent ops] := by
  unfold proc_create at h ⊢
  split at h
  · exact ⟨rfl, rfl, rfl⟩
  · exact ⟨rfl, rfl, rfl⟩
  · simp at h

theorem proc_create_ok (s : State) (name : String) (mode parent : Nat) (ops : proc_ops)
    (h : (proc_create s name mode parent ops).1 ≠ 0) :
    (proc_create s name mode parent ops).2.proc_entries
      = { addr := (proc_create s name mode parent ops).1, name := name, mode := mode,
          parent := parent, ops := ops } :: s.proc_entries ∧
    (proc_create s name mode parent ops).2.klog = s.klog ∧
    (proc_create s name mode parent ops).2.proc_calls
      = s.proc_calls ++ [ProcCall.create name mode parent ops] := by
  unfold proc_create at h ⊢
  split at h
  · simp at h
  · simp at h
  · exact ⟨rfl, rfl, rfl⟩

theorem init_of_null (s : State)
    (h : (proc_create s "mkloubert" 0 0 driver_proc_ops).1 = 0) :
    mkloubert_module_init s =
      (-ENOMEM,
        printk { (proc_create s "mkloubert" 0 0 driver_proc_ops).2 with custom_proc_node := 0 }
          LogLevel.KERN_ERR "mkloubert_module_init: Failed to create proc entry\n") := by
  unfold mkloubert_module_init
  simp only [h, if_true]

theorem init_of_handle (s : State)
    (h : (proc_create s "mkloubert" 0 0 driver_proc_ops).1 ≠ 0) :
    mkloubert_module_init s =
      (0,
        printk { (proc_create s "mkloubert" 0 0 driver_proc_ops).2 with
                 custom_proc_node := (proc_create s "mkloubert" 0 0 driver_proc_ops).1 }
          LogLevel.KERN_INFO "mkloubert_module_init: Proc entry created successfully\n") := by
  unfold mkloubert_module_init
  simp only [h, if_false]

/-! ## Module load and unload: claims -/

/-- Claim C5: when `proc_create` returns `NULL`, `mkloubert_module_init`
returns `-ENOMEM` (-12), the stored handle is `NULL` and so not valid, nothing
is registered, and the kernel log gains exactly one record, of severity
`KERN_ERR`, hence no `KERN_INFO` record. -/
theorem init_failure_is_out_of_memory (s : State)
    (hfail : (proc_create s "mkloubert" 0 0 driver_proc_ops).1 = 0) :
    (mkloubert_module_init s).1 = -ENOMEM ∧
    (mkloubert_module_init s).1 = -12 ∧
    (mkloubert_module_init s).2.custom_proc_node = 0 ∧
    handle_valid (mkloubert_module_init s).2 = false ∧
    (mkloubert_module_init s).2.proc_entries = s.proc_entries ∧
    (mkloubert_module_init s).2.klog = s.klog ++
      [(LogLevel.KERN_ERR, "mkloubert_module_init: Failed to create proc entry\n")] := by
  obtain ⟨he, hl, _⟩ := proc_create_null s "mkloubert" 0 0 driver_proc_ops hfail
  rw [init_of_null s hfail]
  refine ⟨rfl, rfl, rfl, ?_, ?_, ?_⟩
  · simp [handle_valid, printk]
  · simpa [printk] using he
  · simp [printk, hl]

theorem init_failure_is_out_of_memory_witness :
    (proc_create exhausted_host "mkloubert" 0 0 driver_proc_ops).1 = 0 ∧
    ((mkloubert_module_init exhausted_host).1 = -ENOMEM ∧
    (mkloubert_module_init exhausted_host).1 = -12 ∧
    (mkloubert_module_init exhausted_host).2.custom_proc_node = 0 ∧
    handle_valid (mkloubert_module_init exhausted_host).2 = false ∧
    (mkloubert_module_init exhausted_host).2.proc_entries = exhausted_host.proc_entries ∧
    (mkloubert_module_init exhausted_host).2.klog = exhausted_host.klog ++
      [(LogLevel.KERN_ERR, "mkloubert_module_init: Failed to create proc entry\n")]) :=
  ⟨by decide, init_failure_is_out_of_memory exhausted_host (by decide)⟩

/-- Claim C6: when `proc_create` returns a non-null handle,
`mkloubert_module_init` returns 0 and stores exactly that handle, which is
then valid; the following `mkloubert_module_exit` asks the host to remove
exactly that handle, logs one `KERN_INFO` record, leaves no entry with that
address in the registry, and the handle is no longer valid. -/
theorem init_then_exit_releases_handle (s : State)
    (hok : (proc_create s "mkloubert" 0 0 driver_proc_ops).1 ≠ 0) :
    (mkloubert_module_init s).1 = 0 ∧
    (mkloubert_module_init s).2.custom_proc_node
      = (proc_create s "mkloubert" 0 0 driver_proc_ops).1 ∧
    (mkloubert_module_init s).2.custom_proc_node ≠ 0 ∧
    handle_valid (mkloubert_module_init s).2 = true ∧
    (mkloubert_module_exit (mkloubert_module_init s).2).proc_calls
      = (mkloubert_module_init s).2.proc_calls
        ++ [ProcCall.remove (proc_create s "mkloubert" 0 0 driver_proc_ops).1] ∧
    (mkloubert_module_exit (mkloubert_module_init s).2).klog
      = (mkloubert_module_init s).2.klog
        ++ [(LogLevel.KERN_INFO, "mkloubert_module_exit: Proc entry removed\n")] ∧
    (∀ e ∈ (mkloubert_module_exit (mkloubert_module_init s).2).proc_entries,
      e.addr ≠ (proc_create s "mkloubert" 0 0 driver_proc_ops).1) ∧
    handle_valid (mkloubert_module_exit (mkloubert_module_init s).2) = false := by
  obtain ⟨he, _, _⟩ := proc_create_ok s "mkloubert" 0 0 driver_proc_ops hok
  rw [init_of_handle s hok]
  refine ⟨rfl, rfl, hok, ?_, ?_, ?_, ?_, ?_⟩
  · simp [handle_valid, printk, he, hok]
  · simp [mkloubert_module_exit, proc_remove, printk, hok]
  · simp [mkloubert_module_exit, proc_remove, printk, hok]
  · intro e hmem
    simp [mkloubert_module_exit, proc_remove, printk, hok] at hmem
    exact hmem.2
  · simp [handle_valid, mkloubert_module_exit, proc_remove, printk, hok]

theorem init_then_exit_releases_handle_witness :
    (proc_create healthy_host "mkloubert" 0 0 driver_proc_ops).1 ≠ 0 ∧
    ((mkloubert_module_init healthy_host).1 = 0 ∧
    (mkloubert_module_init healthy_host).2.custom_proc_node
      = (proc_create healthy_host "mkloubert" 0 0 driver_proc_ops).1 ∧
    (mkloubert_module_init healthy_host).2.custom_proc_node ≠ 0 ∧
    handle_valid (mkloubert_module_init healthy_host).2 = true ∧
    (mkloubert_module_exit (mkloubert_module_init healthy_host).2).proc_calls
      = (mkloubert_module_init healthy_host).2.proc_calls
        ++ [ProcCall.remove (proc_create healthy_host "mkloubert" 0 0 driver_proc_ops).1] ∧
    (mkloubert_module_exit (mkloubert_module_init healthy_host).2).klog
      = (mkloubert_module_init healthy_host).2.klog
        ++ [(LogLevel.KERN_INFO, "mkloubert_module_exit: Proc entry removed\n")] ∧
    (∀ e ∈ (mkloubert_module_exit (mkloubert_module_init healthy_host).2).proc_entries,
      e.addr ≠ (proc_create healthy_host "mkloubert" 0 0 driver_proc_ops).1) ∧
    handle_valid (mkloubert_module_exit (mkloubert_module_init healthy_host).2) = false) :=
  ⟨by decide, init_then_exit_releases_handle healthy_host (by decide)⟩

/-- Claim C7, evaluated on a healthy host: the entry `mkloubert_module_init`
asks the host to create, and the entry that is then registered, is named
`"mkloubert"`; no entry named `"mkloubert_driver"` is requested or
registered. -/
theorem init_requests_entry_named_mkloubert :
    (mkloubert_module_init healthy_host).2.proc_calls
      = [ProcCall.create "mkloubert" 0 0 driver_proc_ops] ∧
    (mkloubert_module_init healthy_host).2.proc_entries.map (fun e => e.name)
      = ["mkloubert"] ∧
    (mkloubert_module_init healthy_host).2.proc_calls
      ≠ [ProcCall.create "mkloubert_driver" 0 0 driver_proc_ops] ∧
    "mkloubert_driver" ∉
      (mkloubert_module_init healthy_host).2.proc_entries.map (fun e => e.name) := by
  decide

/-- Claim C8 as stated fails: on a host that cannot create the entry,
`proc_create` returns `NULL` and `mkloubert_module_init` returns -12, which
is not -1. -/
theorem init_failure_status_is_not_minus_one :
    (proc_create exhausted_host "mkloubert" 0 0 driver_proc_ops).1 = 0 ∧
    (mkloubert_module_init exhausted_host).1 = -12 ∧
    ¬ (mkloubert_module_init exhausted_host).1 = -1 := by
  decide

/-- Claim C8, amended: `mkloubert_module_init` returns 0 when `proc_create`
returns a handle, and the negative errno `-ENOMEM`, which is -12 and never
-1, whenever `proc_create` returns `NULL`. -/
theorem init_status_codes (s : State) :
    ((proc_create s "mkloubert" 0 0 driver_proc_ops).1 ≠ 0 →
      (mkloubert_module_init s).1 = 0) ∧
    ((proc_create s "mkloubert" 0 0 driver_proc_ops).1 = 0 →
      (mkloubert_module_init s).1 = -ENOMEM ∧
      (mkloubert_module_init s).1 = -12 ∧
      (mkloubert_module_init s).1 ≠ -1) := by
  constructor
  · intro h
    rw [init_of_handle s h]
  · intro h
    rw [init_of_null s h]
    refine ⟨rfl, rfl, ?_⟩
    show -ENOMEM ≠ -1
    decide

theorem init_status_codes_witness :
    (proc_create healthy_host "mkloubert" 0 0 driver_proc_ops).1 ≠ 0 ∧
    (mkloubert_module_init healthy_host).1 = 0 ∧
    (proc_create exhausted_host "mkloubert" 0 0 driver_proc_ops).1 = 0 ∧
    ((mkloubert_module_init exhausted_host).1 = -ENOMEM ∧
      (mkloubert_module_init exhausted_host).1 = -12 ∧
      (mkloubert_module_init exhausted_host).1 ≠ -1) :=
  ⟨by decide, (init_status_codes healthy_host).1 (by decide),
    by decide, (init_status_codes exhausted_host).2 (by decide)⟩

end Mkloubert
